import Mathlib

/-!
Verification of the go-cross-build entrypoint (`entrypoint.go`).

The program is a sequential orchestrator: it parses configuration from
environment variables, loops over `kernel/arch` targets, shells out to
`go build` (and, when compression is requested, to `cp`, `tar`, `rm` and a
diagnostic `/bin/sh -c` step), and finally lists the destination directory
and reports the discovered paths.

We embed the program shallowly: external commands become trace entries
(`Step`), their success or failure is an oracle (`World`), and the
destination directory is a list of file names.  String primitives used by
the Go code (`strings.Split`, `strings.ReplaceAll`, `strings.ToLower`,
`filepath.Join`/`Clean`) are re-implemented over `List Char` so that every
definition is executable and kernel-reducible.
-/

/-- Character constants, written via `Char.ofNat` (codes 32, 47, 44, 39). -/
def spaceChar : Char := Char.ofNat 32

/-- The separator `/` used in target specifications. -/
def slashChar : Char := Char.ofNat 47

/-- The separator `,` used in the target list. -/
def commaChar : Char := Char.ofNat 44

/-- A single-quote character, as a one-character string. -/
def squote : String := String.mk [Char.ofNat 39]

/-- Model of Go `strings.Split(s, sep)` for a one-character separator,
over the character list.  `[]` input yields `[[]]`, matching Go's
`Split("", sep) = [""]`. -/
def splitOnSep (sep : Char) : List Char → List (List Char)
  | [] => [[]]
  | c :: rest =>
      let r := splitOnSep sep rest
      if c = sep then [] :: r
      else
        match r with
        | h :: t => (c :: h) :: t
        | [] => [[c]]

/-- Model of Go `strings.ReplaceAll(s, " ", "")`: drop every space. -/
def stripSpaces (s : String) : String :=
  String.mk (s.data.filter (fun c => c ≠ spaceChar))

/-- Number of occurrences of a separator character in a character list. -/
def countSep (sep : Char) : List Char → Nat
  | [] => 0
  | c :: rest => (if c = sep then 1 else 0) + countSep sep rest

/-- Model of Go `strings.ToLower` restricted to ASCII (the inputs compared
against `"true"` are ASCII). -/
def lowerStr (s : String) : String :=
  String.mk (s.data.map Char.toLower)

/-- Surrounding-whitespace trim (spec-side helper; the Go source never
trims the compress flag). -/
def trimSpaces (s : String) : String :=
  String.mk
    (((s.data.dropWhile (fun c => c = spaceChar)).reverse.dropWhile
        (fun c => c = spaceChar)).reverse)

/-- A parsed target: `entrypoint.go` builds the map
`{"kernel": platformSpec[0], "arch": platformSpec[1]}`. -/
structure Platform where
  kernel : String
  arch : String
deriving DecidableEq, Repr

/-- Model of the per-element parsing in `main`
(`entrypoint.go:211-217`): spaces are removed, the element is split on
`/`, and fields 0 and 1 are read.  Fewer than two fields is a fatal
index-out-of-range panic, modelled as `none`; any extra fields are
silently ignored. -/
def parseTarget (s : String) : Option Platform :=
  match splitOnSep slashChar (stripSpaces s).data with
  | k :: a :: _ => some ⟨String.mk k, String.mk a⟩
  | _ => none

/-- Model of the compress-flag parsing in `main`
(`entrypoint.go:202-205`): `compress := ToLower(v) == "true"`.  Note that
the raw environment value is used; no whitespace is removed. -/
def parseCompress (s : String) : Bool :=
  lowerStr s == "true"

/-- Spec-side reading of the compress flag: trim surrounding whitespace,
then compare case-insensitively with `"true"`. -/
def parseCompressSpec (s : String) : Bool :=
  lowerStr (trimSpaces s) == "true"

/-- Outcome of a stat call in `fileExists` (`entrypoint.go:15-30`). -/
inductive StatRes where
  | ok
  | errNotExist
  | errOther
deriving DecidableEq, Repr

/-- Model of `fileExists` (`entrypoint.go:15-30`): on a stat error the
function returns `!os.IsNotExist(err)`, so a stat failure other than
non-existence yields `true` (the file is treated as present). -/
def fileExists : StatRes → Bool
  | .ok => true
  | .errNotExist => false
  | .errOther => true

/- ### Basic lemmas about the split model -/

theorem splitOnSep_ne_nil (sep : Char) (cs : List Char) :
    splitOnSep sep cs ≠ [] := by
  induction cs with
  | nil => simp [splitOnSep]
  | cons c rest ih =>
      simp only [splitOnSep]
      by_cases h : c = sep
      · simp [h]
      · simp only [h, if_false]
        cases hr : splitOnSep sep rest with
        | nil => exact absurd hr ih
        | cons x t => simp

theorem splitOnSep_length (sep : Char) (cs : List Char) :
    (splitOnSep sep cs).length = countSep sep cs + 1 := by
  induction cs with
  | nil => simp [splitOnSep, countSep]
  | cons c rest ih =>
      simp only [splitOnSep, countSep]
      by_cases h : c = sep
      · simp [h, ih]
        omega
      · simp only [h, if_false]
        cases hr : splitOnSep sep rest with
        | nil => exact absurd hr (splitOnSep_ne_nil sep rest)
        | cons x t =>
            rw [hr] at ih
            simp at ih ⊢
            omega

/- ### Path model: Go `filepath.Clean` and `filepath.Join` (unix) -/

/-- Join a list of strings with a separator string. -/
def joinWith (sep : String) : List String → String
  | [] => ""
  | [x] => x
  | x :: y :: rest => x ++ sep ++ joinWith sep (y :: rest)

/-- Lexical processing of `..` components, as in Go `filepath.Clean`:
`..` pops a previous component; at the root it is dropped, while in a
relative path it is kept.  The accumulator is in reverse order. -/
def dotdotFold (rooted : Bool) (comps : List String) : List String :=
  comps.foldl
    (fun acc c =>
      if c = ".." then
        match acc with
        | [] => if rooted then [] else [".."]
        | a :: rest => if a = ".." then c :: acc else rest
      else c :: acc)
    []

/-- Model of Go `filepath.Clean` for unix paths: empty path becomes `.`,
empty and `.` components are dropped, `..` is resolved lexically, and a
rooted path keeps its leading `/`. -/
def cleanPath (path : String) : String :=
  if path = "" then "."
  else
    let rooted := path.data.head? = some slashChar
    let comps :=
      ((splitOnSep slashChar path.data).map String.mk).filter
        (fun c => c ≠ "" ∧ c ≠ ".")
    let out := (dotdotFold rooted comps).reverse
    let s := joinWith "/" out
    if rooted then "/" ++ s
    else if s = "" then "." else s

/-- Model of Go `filepath.Join` on two elements: empty elements are
skipped and the joined path is cleaned; all-empty input yields `""`. -/
def joinP (a b : String) : String :=
  if a = "" then (if b = "" then "" else cleanPath b)
  else if b = "" then cleanPath a
  else cleanPath (a ++ "/" ++ b)

/- ### Configuration and the per-target build -/

/-- The configuration read in `main` (`entrypoint.go:186-205`) together
with the two environment variables read inside `build`
(`INPUT_NAME`, `GITHUB_WORKSPACE`). -/
structure Config where
  packageName : String
  destDir : String
  ldflags : String
  compress : Bool
  inputName : String
  workspaceDir : String
deriving DecidableEq, Repr

/-- Binary file name (`entrypoint.go:53-61`): `name-kernel-arch`, or just
`name` when compression is enabled; `.exe` appended when the kernel is
`windows`. -/
def buildFileName (cfg : Config) (p : Platform) : String :=
  let n :=
    if cfg.compress then cfg.inputName
    else cfg.inputName ++ "-" ++ p.kernel ++ "-" ++ p.arch
  if p.kernel = "windows" then n ++ ".exe" else n

/-- Spec-side binary name: `{baseName}-{kernel}-{arch}` normally, plainly
`{baseName}` when packaging is enabled, with `.exe` appended exactly for
the Windows-family kernel. -/
def binaryNameSpec (base kernel arch : String) (compress : Bool) : String :=
  let stem := if compress then base else base ++ "-" ++ kernel ++ "-" ++ arch
  if kernel = "windows" then stem ++ ".exe" else stem

/-- Destination directory path (`entrypoint.go:67`). -/
def destDirPath (cfg : Config) : String :=
  joinP cfg.workspaceDir cfg.destDir

/-- Output path handed to `go build -o` (`entrypoint.go:70`). -/
def buildFilePath (cfg : Config) (p : Platform) : String :=
  joinP (destDirPath cfg) (buildFileName cfg p)

/-- Package path (`entrypoint.go:73-78`): `"."` when no package name is
configured, otherwise the name behind a relative-path marker `"./"`. -/
def packagePath (cfg : Config) : String :=
  if cfg.packageName = "" then "." else "./" ++ cfg.packageName

/-- Arguments of the `go` invocation (`entrypoint.go:83`). -/
def buildArgs (cfg : Config) (p : Platform) : List String :=
  ["build", "-buildmode", "exe", "-ldflags", cfg.ldflags, "-o",
    buildFilePath cfg p, packagePath cfg]

/-- Archive name (`entrypoint.go:109`). -/
def gzFileName (cfg : Config) (p : Platform) : String :=
  cfg.inputName ++ "-" ++ p.kernel ++ "-" ++ p.arch ++ ".tar.gz"

/-- One external command invocation, as recorded in the trace. -/
inductive Step where
  | compile (args : List String) (goos goarch : String)
  | copy (src dest : String)
  | tar (dir : String) (args : List String)
  | rm (dir : String) (args : List String)
  | shell (dir cmd : String)
deriving DecidableEq, Repr

/-- Oracle for the results of the external commands and stat calls a
single `build` call performs. -/
structure World where
  goBuildOk : Bool
  readmeStat : StatRes
  licenseStat : StatRes
  cpReadmeOk : Bool
  cpLicenseOk : Bool
  tarOk : Bool
  rmOk : Bool
  diagOk : Bool
deriving DecidableEq, Repr

/-- Program outcome: normal return, `os.Exit(1)`, or a runtime panic. -/
inductive Outcome where
  | success
  | fatal
  | panicked
deriving DecidableEq, Repr

/-- Result of a `build` call: trace of invoked commands, contents of the
destination directory, and control-flow outcome. -/
structure BuildResult where
  trace : List Step
  fs : List String
  outcome : Outcome
deriving DecidableEq, Repr

/-- Write a file name into a directory listing (overwriting keeps one
entry). -/
def writeFile (fs : List String) (name : String) : List String :=
  if name ∈ fs then fs else fs ++ [name]

/-- The inclusion list built at `entrypoint.go:114-126`: the binary, then
`README.md` and `LICENSE` whenever `fileExists` says so. -/
def stagedFiles (cfg : Config) (p : Platform) (w : World) : List String :=
  buildFileName cfg p ::
    ((if fileExists w.readmeStat then ["README.md"] else []) ++
      (if fileExists w.licenseStat then ["LICENSE"] else []))

/-- The fixed command string of the diagnostic step
(`entrypoint.go:164`): `fmt.Sprintf("'pwd && ls -la'")`, single quotes
included. -/
def shellArg : String := squote ++ "pwd && ls -la" ++ squote

/-- Model of `build` (`entrypoint.go:43-179`): run `go build`; if
compression is enabled, stage `README.md`/`LICENSE`, run `tar`, run
`rm -f` on the inclusion list, and run the diagnostic shell step.  Every
non-zero result is an immediate `os.Exit(1)`. -/
def build (cfg : Config) (p : Platform) (w : World) (fs0 : List String) :
    BuildResult :=
  let cstep := Step.compile (buildArgs cfg p) p.kernel p.arch
  if !w.goBuildOk then ⟨[cstep], fs0, .fatal⟩
  else
    let fs1 := writeFile fs0 (buildFileName cfg p)
    if !cfg.compress then ⟨[cstep], fs1, .success⟩
    else
      let ddp := destDirPath cfg
      let hasR := fileExists w.readmeStat
      let hasL := fileExists w.licenseStat
      let copyR := Step.copy "README.md" (joinP ddp "README.md")
      let copyL := Step.copy "LICENSE" (joinP ddp "LICENSE")
      if hasR && !w.cpReadmeOk then ⟨[cstep, copyR], fs1, .fatal⟩
      else
        let fs2 := if hasR then writeFile fs1 "README.md" else fs1
        let tr2 := [cstep] ++ (if hasR then [copyR] else [])
        if hasL && !w.cpLicenseOk then ⟨tr2 ++ [copyL], fs2, .fatal⟩
        else
          let fs3 := if hasL then writeFile fs2 "LICENSE" else fs2
          let tr3 := tr2 ++ (if hasL then [copyL] else [])
          let inc := stagedFiles cfg p w
          let tarStep := Step.tar ddp ("-cvzf" :: gzFileName cfg p :: inc)
          if !w.tarOk then ⟨tr3 ++ [tarStep], fs3, .fatal⟩
          else
            let fs4 := writeFile fs3 (gzFileName cfg p)
            let rmStep := Step.rm ddp ("-f" :: inc)
            if !w.rmOk then ⟨tr3 ++ [tarStep, rmStep], fs4, .fatal⟩
            else
              let fs5 := fs4.filter (fun x => decide (x ∉ inc))
              let diagStep := Step.shell ddp shellArg
              if !w.diagOk
              then ⟨tr3 ++ [tarStep, rmStep, diagStep], fs5, .fatal⟩
              else ⟨tr3 ++ [tarStep, rmStep, diagStep], fs5, .success⟩

/- ### Demo inputs shared by several concrete evaluations -/

/-- A small concrete configuration with compression enabled. -/
def cfgDemo : Config :=
  { packageName := "", destDir := "dist", ldflags := "", compress := true,
    inputName := "app", workspaceDir := "/ws" }

/-- A concrete linux/amd64 target. -/
def pDemo : Platform := { kernel := "linux", arch := "amd64" }

/-- A world where every step succeeds and neither ancillary file exists. -/
def wAllOk : World :=
  { goBuildOk := true, readmeStat := .errNotExist, licenseStat := .errNotExist,
    cpReadmeOk := true, cpLicenseOk := true, tarOk := true, rmOk := true,
    diagOk := true }

/-- A world where the stat of `README.md` fails for a reason other than
non-existence, and every external command succeeds. -/
def wStatErr : World := { wAllOk with readmeStat := .errOther }

/- ### C7: binary file name -/

/-- C7: the computed binary file name is `{baseName}-{kernel}-{arch}` when
packaging is disabled and exactly `{baseName}` when packaging is enabled,
with `.exe` appended if and only if the kernel is `windows`. -/
theorem buildFileName_eq_spec (cfg : Config) (p : Platform) :
    buildFileName cfg p =
      binaryNameSpec cfg.inputName p.kernel p.arch cfg.compress := rfl

/- ### C4: compress flag parsing -/

/-- C4 counterexample: the code does not trim the compress value.  On the
input `" true"` (leading space) the spec-side trimmed comparison yields
`true` but the program parses `false`. -/
theorem parseCompress_no_trim_counterexample :
    parseCompress " true" = false ∧ parseCompressSpec " true" = true := by
  decide

/-- C4 amended: the parsed compress flag is `true` iff the raw value,
lowercased (no whitespace trimming), equals `"true"`; every other value,
including the empty string, yields `false`. -/
theorem parseCompress_true_iff (s : String) :
    parseCompress s = true ↔ lowerStr s = "true" := by
  simp [parseCompress]

/- ### C1: target specification parsing -/

/-- C1 counterexample: a target string with two separator occurrences is
not rejected; it silently yields a descriptor from the first two fields. -/
theorem parseTarget_extra_sep_counterexample :
    parseTarget "a/b/c" = some { kernel := "a", arch := "b" } ∧
    countSep slashChar (stripSpaces "a/b/c").data = 2 := by
  decide

/-- C1 amended: a target string produces no descriptor (the per-element
index access panics) exactly when it contains zero separator occurrences;
any string with at least one separator, in particular one with two or
more, silently yields a descriptor from its first two fields. -/
theorem parseTarget_none_iff_no_sep (s : String) :
    parseTarget s = none ↔ countSep slashChar (stripSpaces s).data = 0 := by
  have hlen := splitOnSep_length slashChar (stripSpaces s).data
  cases h : splitOnSep slashChar (stripSpaces s).data with
  | nil => exact absurd h (splitOnSep_ne_nil _ _)
  | cons k t =>
      cases t with
      | nil =>
          rw [h] at hlen
          simp only [List.length_cons, List.length_nil] at hlen
          simp [parseTarget, h]
          omega
      | cons a t2 =>
          rw [h] at hlen
          simp only [List.length_cons] at hlen
          simp [parseTarget, h]
          omega

/- ### C3: existence check failing for a reason other than non-existence -/

/-- C3 counterexample: with a stat error other than non-existence on
`README.md` and every external command succeeding, the build completes
with outcome `success` — the failure of the existence check is not
treated as fatal; instead the file is copied as if present. -/
theorem statErr_not_fatal_counterexample :
    (build cfgDemo pDemo wStatErr []).outcome = .success ∧
    Step.copy "README.md" (joinP (destDirPath cfgDemo) "README.md")
      ∈ (build cfgDemo pDemo wStatErr []).trace := by
  decide

/-- C3 amended: a stat failure other than non-existence makes `fileExists`
return `true`: the file is treated as present, added to the inclusion
list, and its copy step is invoked; the check itself never terminates the
program. -/
theorem statErr_treated_as_present (cfg : Config) (p : Platform) (w : World)
    (fs0 : List String) (hc : cfg.compress = true) (hg : w.goBuildOk = true)
    (hr : w.readmeStat = .errOther) (hcp : w.cpReadmeOk = true) :
    fileExists w.readmeStat = true ∧
    "README.md" ∈ stagedFiles cfg p w ∧
    Step.copy "README.md" (joinP (destDirPath cfg) "README.md")
      ∈ (build cfg p w fs0).trace := by
  refine ⟨by simp [hr, fileExists], by simp [stagedFiles, hr, fileExists], ?_⟩
  simp only [build, hc, hg, hr, hcp, fileExists, Bool.not_true,
    Bool.and_false, Bool.false_and, if_false]
  repeat' split
  all_goals simp_all

/-- Witness for the C3 amended theorem at a concrete input. -/
theorem statErr_treated_as_present_witness :
    fileExists wStatErr.readmeStat = true ∧
    "README.md" ∈ stagedFiles cfgDemo pDemo wStatErr ∧
    Step.copy "README.md" (joinP (destDirPath cfgDemo) "README.md")
      ∈ (build cfgDemo pDemo wStatErr []).trace :=
  statErr_treated_as_present cfgDemo pDemo wStatErr [] rfl rfl rfl rfl

/- ### C2: the unconditional diagnostic shell step -/

/-- C2: for every target processed with compression enabled, once every
compile, copy, archive and cleanup step succeeded, the build
unconditionally invokes one more shell step whose single command-string
argument is exactly the single-quoted text `pwd && ls -la` (quotes
included), and a non-zero result of that step makes the program exit with
status 1. -/
theorem build_diag_step (cfg : Config) (p : Platform) (w : World)
    (fs0 : List String) (hc : cfg.compress = true) (hg : w.goBuildOk = true)
    (hr : w.cpReadmeOk = true) (hl : w.cpLicenseOk = true)
    (ht : w.tarOk = true) (hm : w.rmOk = true) :
    Step.shell (destDirPath cfg) shellArg ∈ (build cfg p w fs0).trace ∧
    shellArg =
      String.mk [Char.ofNat 39] ++ "pwd && ls -la" ++
        String.mk [Char.ofNat 39] ∧
    (w.diagOk = false → (build cfg p w fs0).outcome = .fatal) := by
  refine ⟨?_, rfl, ?_⟩ <;>
    · simp only [build, hc, hg, hr, hl, ht, hm, Bool.not_true,
        Bool.and_false, Bool.false_and, if_false]
      repeat' split
      all_goals simp_all

/-- A world where every step succeeds except the diagnostic shell step. -/
def wDiagFail : World := { wAllOk with diagOk := false }

/-- Witness for C2 at a concrete input where the diagnostic step fails. -/
theorem build_diag_step_witness :
    Step.shell (destDirPath cfgDemo) shellArg
      ∈ (build cfgDemo pDemo wDiagFail []).trace ∧
    shellArg =
      String.mk [Char.ofNat 39] ++ "pwd && ls -la" ++
        String.mk [Char.ofNat 39] ∧
    (build cfgDemo pDemo wDiagFail []).outcome = .fatal := by
  have h := build_diag_step cfgDemo pDemo wDiagFail []
    rfl rfl rfl rfl rfl rfl
  exact ⟨h.1, h.2.1, h.2.2 rfl⟩

/- ### C9: arguments of the compile step -/

set_option maxHeartbeats 1000000 in
/-- C9: for every target, the first and only compile invocation carries
the resolved output path, the configured linker flags, the target kernel
and architecture as `GOOS`/`GOARCH` overrides, and a package path equal to
`"./" ++ packageName`, or `"."` when no package name is configured. -/
theorem build_compile_args (cfg : Config) (p : Platform) (w : World)
    (fs0 : List String) :
    (build cfg p w fs0).trace.head? =
      some (Step.compile
        ["build", "-buildmode", "exe", "-ldflags", cfg.ldflags, "-o",
          joinP (joinP cfg.workspaceDir cfg.destDir) (buildFileName cfg p),
          if cfg.packageName = "" then "." else "./" ++ cfg.packageName]
        p.kernel p.arch) := by
  show (build cfg p w fs0).trace.head? =
    some (Step.compile (buildArgs cfg p) p.kernel p.arch)
  simp only [build]
  repeat' split
  all_goals rfl

/- ### C10: with compress = false only the compile step runs -/

/-- C10: for every target processed with `compress = false`, the trace is
exactly one compile step — no copy, archive, cleanup or shell step runs —
and the only change to the destination directory is the binary (written
when the compile succeeds, nothing otherwise). -/
theorem build_no_compress_frame (cfg : Config) (p : Platform) (w : World)
    (fs0 : List String) (hc : cfg.compress = false) :
    (build cfg p w fs0).trace =
      [Step.compile (buildArgs cfg p) p.kernel p.arch] ∧
    (build cfg p w fs0).fs =
      (if w.goBuildOk then writeFile fs0 (buildFileName cfg p) else fs0) ∧
    (build cfg p w fs0).outcome =
      (if w.goBuildOk then .success else .fatal) := by
  cases hg : w.goBuildOk <;> simp_all [build]

/-- Witness for C10 at a concrete input. -/
theorem build_no_compress_frame_witness :
    (build { cfgDemo with compress := false } pDemo wAllOk []).trace =
      [Step.compile (buildArgs { cfgDemo with compress := false } pDemo)
        pDemo.kernel pDemo.arch] ∧
    (build { cfgDemo with compress := false } pDemo wAllOk []).fs =
      (if wAllOk.goBuildOk then
        writeFile [] (buildFileName { cfgDemo with compress := false } pDemo)
      else []) ∧
    (build { cfgDemo with compress := false } pDemo wAllOk []).outcome =
      (if wAllOk.goBuildOk then .success else .fatal) :=
  build_no_compress_frame { cfgDemo with compress := false } pDemo wAllOk []
    rfl

/- ### C8: archive contents and cleanup -/

theorem strLen_eq_zero {s : String} (h : s.length = 0) : s = "" := by
  cases s with
  | mk d =>
      cases d with
      | nil => rfl
      | cons c cs => simp [String.length] at h

theorem gz_len (n k a : String) :
    (n ++ "-" ++ k ++ "-" ++ a ++ ".tar.gz").length =
      n.length + k.length + a.length + 9 := by
  have h1 : ("-" : String).length = 1 := rfl
  have h2 : (".tar.gz" : String).length = 7 := rfl
  simp [String.length_append, h1, h2]
  omega

theorem gz_ne_plain (n k a : String) :
    n ++ "-" ++ k ++ "-" ++ a ++ ".tar.gz" ≠ n := by
  intro h
  have hl := congrArg String.length h
  rw [gz_len] at hl
  omega

theorem gz_ne_exe (n k a : String) :
    n ++ "-" ++ k ++ "-" ++ a ++ ".tar.gz" ≠ n ++ ".exe" := by
  intro h
  have hl := congrArg String.length h
  rw [gz_len, String.length_append] at hl
  have h4 : (".exe" : String).length = 4 := rfl
  rw [h4] at hl
  omega

theorem gz_ne_readme (n k a : String) :
    n ++ "-" ++ k ++ "-" ++ a ++ ".tar.gz" ≠ "README.md" := by
  intro h
  have hl := congrArg String.length h
  rw [gz_len] at hl
  have h9 : ("README.md" : String).length = 9 := rfl
  rw [h9] at hl
  obtain rfl := strLen_eq_zero (s := n) (by omega)
  obtain rfl := strLen_eq_zero (s := k) (by omega)
  obtain rfl := strLen_eq_zero (s := a) (by omega)
  exact absurd h (by decide)

theorem gz_ne_license (n k a : String) :
    n ++ "-" ++ k ++ "-" ++ a ++ ".tar.gz" ≠ "LICENSE" := by
  intro h
  have hl := congrArg String.length h
  rw [gz_len] at hl
  have h7 : ("LICENSE" : String).length = 7 := rfl
  rw [h7] at hl
  omega

/-- With compression enabled, the archive name never collides with any
file of the inclusion list, so the cleanup step cannot delete the
archive. -/
theorem gz_not_in_staged (cfg : Config) (p : Platform) (w : World)
    (hc : cfg.compress = true) :
    gzFileName cfg p ∉ stagedFiles cfg p w := by
  intro hmem
  simp only [stagedFiles, List.mem_cons, List.mem_append] at hmem
  rcases hmem with h | h | h
  · rw [gzFileName, buildFileName, hc] at h
    simp only [if_true] at h
    by_cases hw : p.kernel = "windows"
    · rw [if_pos hw] at h
      exact gz_ne_exe _ _ _ h
    · rw [if_neg hw] at h
      exact gz_ne_plain _ _ _ h
  · by_cases hR : fileExists w.readmeStat <;> simp [hR] at h
    exact gz_ne_readme _ _ _ h
  · by_cases hL : fileExists w.licenseStat <;> simp [hL] at h
    exact gz_ne_license _ _ _ h

theorem writeFile_mem_subset {S fs : List String} {n : String}
    (hfs : ∀ x ∈ fs, x ∈ S) (hn : n ∈ S) :
    ∀ x ∈ writeFile fs n, x ∈ S := by
  intro x hx
  unfold writeFile at hx
  split at hx
  · exact hfs x hx
  · rcases List.mem_append.mp hx with h | h
    · exact hfs x h
    · rw [List.mem_singleton.mp h]
      exact hn

theorem writeFile_of_not_mem {fs : List String} {n : String} (h : n ∉ fs) :
    writeFile fs n = fs ++ [n] := by
  simp [writeFile, h]

/-- The destination-directory contents after the conditional staging
copies on the success path of `build` (`entrypoint.go:114-126`). -/
def fsAfterCopies (cfg : Config) (p : Platform) (w : World)
    (fs0 : List String) : List String :=
  let fs1 := writeFile fs0 (buildFileName cfg p)
  let fs2 := if fileExists w.readmeStat then writeFile fs1 "README.md" else fs1
  if fileExists w.licenseStat then writeFile fs2 "LICENSE" else fs2

theorem fsAfterCopies_subset (cfg : Config) (p : Platform) (w : World) :
    ∀ x ∈ fsAfterCopies cfg p w [], x ∈ stagedFiles cfg p w := by
  have h0 : ∀ x ∈ ([] : List String), x ∈ stagedFiles cfg p w := by simp
  have h1 : ∀ x ∈ writeFile [] (buildFileName cfg p),
      x ∈ stagedFiles cfg p w :=
    writeFile_mem_subset h0 (by simp [stagedFiles])
  unfold fsAfterCopies
  by_cases hR : fileExists w.readmeStat <;>
    by_cases hL : fileExists w.licenseStat <;>
      simp only [hR, hL, if_true, if_false, Bool.false_eq_true]
  · exact writeFile_mem_subset
      (writeFile_mem_subset h1 (by simp [stagedFiles, hR]))
      (by simp [stagedFiles, hL])
  · exact writeFile_mem_subset h1 (by simp [stagedFiles, hR])
  · exact writeFile_mem_subset h1 (by simp [stagedFiles, hL])
  · exact h1

theorem filter_staged {S fs : List String} {g : String}
    (hfs : ∀ x ∈ fs, x ∈ S) (hg : g ∉ S) :
    (writeFile fs g).filter (fun x => decide (x ∉ S)) = [g] := by
  have hnot : g ∉ fs := fun hx => hg (hfs g hx)
  rw [writeFile_of_not_mem hnot, List.filter_append]
  rw [List.filter_eq_nil_iff.mpr (by intro a ha; simp [hfs a ha])]
  simp [hg]

/-- C8: with compression enabled and every step succeeding, the archive
step is invoked on `{baseName}-{kernel}-{arch}.tar.gz` with exactly the
inclusion-list files (the binary plus `README.md` and `LICENSE` if and
only if each exists), the cleanup step removes exactly the inclusion
list, and — starting from an empty destination directory — the archive is
the only per-target artifact that remains. -/
theorem build_archive_and_cleanup (cfg : Config) (p : Platform) (w : World)
    (hc : cfg.compress = true) (hg : w.goBuildOk = true)
    (hr : w.cpReadmeOk = true) (hl : w.cpLicenseOk = true)
    (ht : w.tarOk = true) (hm : w.rmOk = true) (hd : w.diagOk = true)
    (hrs : w.readmeStat ≠ .errOther) (hls : w.licenseStat ≠ .errOther) :
    stagedFiles cfg p w =
      buildFileName cfg p ::
        ((if w.readmeStat = .ok then ["README.md"] else []) ++
          (if w.licenseStat = .ok then ["LICENSE"] else [])) ∧
    Step.tar (destDirPath cfg)
        ("-cvzf" :: gzFileName cfg p :: stagedFiles cfg p w)
      ∈ (build cfg p w []).trace ∧
    Step.rm (destDirPath cfg) ("-f" :: stagedFiles cfg p w)
      ∈ (build cfg p w []).trace ∧
    (build cfg p w []).fs = [gzFileName cfg p] ∧
    (build cfg p w []).outcome = .success := by
  refine ⟨?_, ?_, ?_, ?_, ?_⟩
  · cases hA : w.readmeStat <;> cases hB : w.licenseStat <;>
      simp_all [stagedFiles, fileExists]
  · simp only [build, hc, hg, hr, hl, ht, hm, hd, Bool.not_true,
      Bool.and_false, Bool.false_and, if_false]
    simp [List.mem_append]
  · simp only [build, hc, hg, hr, hl, ht, hm, hd, Bool.not_true,
      Bool.and_false, Bool.false_and, if_false]
    simp [List.mem_append]
  · simp only [build, hc, hg, hr, hl, ht, hm, hd, Bool.not_true,
      Bool.and_false, Bool.false_and, if_false]
    show (writeFile (fsAfterCopies cfg p w []) (gzFileName cfg p)).filter
        (fun x => decide (x ∉ stagedFiles cfg p w)) = [gzFileName cfg p]
    exact filter_staged (fsAfterCopies_subset cfg p w)
      (gz_not_in_staged cfg p w hc)
  · simp only [build, hc, hg, hr, hl, ht, hm, hd, Bool.not_true,
      Bool.and_false, Bool.false_and, if_false]
    simp

/-- Witness for C8 at a concrete input where both ancillary files exist. -/
theorem build_archive_and_cleanup_witness :
    stagedFiles cfgDemo pDemo
        { wAllOk with readmeStat := .ok, licenseStat := .ok } =
      buildFileName cfgDemo pDemo :: (["README.md"] ++ ["LICENSE"]) ∧
    (build cfgDemo pDemo
        { wAllOk with readmeStat := .ok, licenseStat := .ok } []).fs =
      [gzFileName cfgDemo pDemo] := by
  have h := build_archive_and_cleanup cfgDemo pDemo
    { wAllOk with readmeStat := .ok, licenseStat := .ok }
    rfl rfl rfl rfl rfl rfl rfl (by decide) (by decide)
  exact ⟨by rw [h.1]; rfl, h.2.2.2.1⟩

/- ### The main loop, final listing and walk (`entrypoint.go:183-247`) -/

/-- The environment variables read by `main` and `build`. -/
structure Env where
  inputPlatforms : String
  inputPackage : String
  inputCompress : String
  inputDest : String
  inputLdflags : String
  inputName : String
  workspaceDir : String
deriving DecidableEq, Repr

/-- The configuration `main` assembles (`entrypoint.go:186-205`): spaces
are removed from the package and destination values, the compress flag is
parsed with `parseCompress`, and the linker flags are passed through
verbatim. -/
def mkConfig (env : Env) : Config :=
  { packageName := stripSpaces env.inputPackage,
    destDir := stripSpaces env.inputDest,
    ldflags := env.inputLdflags,
    compress := parseCompress env.inputCompress,
    inputName := env.inputName,
    workspaceDir := env.workspaceDir }

/-- The comma-separated target list (`entrypoint.go:199`). -/
def platformStrs (env : Env) : List String :=
  (splitOnSep commaChar env.inputPlatforms.data).map String.mk

/-- The per-target loop (`entrypoint.go:208-221`): parse each element
(an out-of-range index panics) and run `build`; a fatal build stops the
program. -/
def runBuilds (cfg : Config) :
    List (String × World) → List String → List Step → BuildResult
  | [], fs, tr => ⟨tr, fs, .success⟩
  | (ps, w) :: rest, fs, tr =>
    match parseTarget ps with
    | none => ⟨tr, fs, .panicked⟩
    | some p =>
      let res := build cfg p w fs
      match res.outcome with
      | .success => runBuilds cfg rest res.fs (tr ++ res.trace)
      | o => ⟨tr ++ res.trace, res.fs, o⟩

/-- Filesystem failures the final directory walk may encounter. -/
inductive WalkFsErr where
  | noErr
  | statRootErr
  | readDirErr
deriving DecidableEq, Repr

/-- Lexicographic byte-order comparison, as used by Go to sort directory
entries during `filepath.Walk`. -/
def lexLe : List Char → List Char → Bool
  | [], _ => true
  | _ :: _, [] => false
  | c :: cs, d :: ds =>
    if c.toNat < d.toNat then true
    else if d.toNat < c.toNat then false
    else lexLe cs ds

/-- Insertion into a sorted list of strings. -/
def insertSorted (x : String) : List String → List String
  | [] => [x]
  | y :: ys => if lexLe x.data y.data then x :: y :: ys else y :: insertSorted x ys

/-- Insertion sort of strings (directory entries are visited in lexical
order). -/
def sortStrs : List String → List String
  | [] => []
  | x :: xs => insertSorted x (sortStrs xs)

/-- Model of `filepath.Walk(destDir, walkFn)` with the walk function of
`entrypoint.go:236-239`, which appends every visited path and returns
nil.  The walk visits the root itself first, then the entries in lexical
order.  On a filesystem error the walk function is invoked exactly once
for the root, carrying the error (`filepath.Walk` reads the directory
before the root callback and passes a readDir failure to that single
call), and it still returns nil, so the returned error (second
component) is `false` in every case. -/
def walkModel (root : String) (names : List String) :
    WalkFsErr → List String × Bool
  | .statRootErr => ([root], false)
  | .readDirErr => ([root], false)
  | .noErr => (root :: (sortStrs names).map (fun n => joinP root n), false)

/-- The `::set-output` line (`entrypoint.go:246`). -/
def setOutputLine (files : List String) : String :=
  "::set-output name=files::" ++ joinWith " " files

/-- Result of a whole program run. -/
structure MainResult where
  fsFinal : List String
  walkFiles : List String
  output : Option String
  outcome : Outcome
deriving DecidableEq, Repr

/-- Model of `main` (`entrypoint.go:183-247`): build every target, then
`ls` the destination directory (fatal on failure), then walk it and emit
the `::set-output` line; the walk-error branch at `entrypoint.go:241-244`
is only taken when `filepath.Walk` returns a non-nil error. -/
def mainRun (env : Env) (worlds : List World) (lsOk : Bool) (e : WalkFsErr)
    (fs0 : List String) : MainResult :=
  let cfg := mkConfig env
  let r := runBuilds cfg ((platformStrs env).zip worlds) fs0 []
  match r.outcome with
  | .success =>
    if !lsOk then ⟨r.fs, [], none, .fatal⟩
    else
      let wk := walkModel cfg.destDir r.fs e
      if wk.2 then ⟨r.fs, wk.1, none, .fatal⟩
      else ⟨r.fs, wk.1, some (setOutputLine wk.1), .success⟩
  | o => ⟨r.fs, [], none, o⟩

/-- The end-to-end scenario of C5: two targets, no compression. -/
def envDemo : Env :=
  { inputPlatforms := "linux/amd64,windows/arm64", inputPackage := "",
    inputCompress := "false", inputDest := "dist", inputLdflags := "",
    inputName := "app", workspaceDir := "/ws" }

/- ### C6: final listing and walk -/

/-- The walk function of `entrypoint.go:236-239` always returns nil, so
`filepath.Walk` never reports an error, whatever the filesystem does. -/
theorem walkModel_no_error (root : String) (names : List String)
    (e : WalkFsErr) : (walkModel root names e).2 = false := by
  cases e <;> rfl

/-- C6 counterexample: a run in which the directory walk encounters a
filesystem error (`readDirErr`) still finishes with outcome `success` and
emits an output line — the walk-error branch is dead code, so "terminates
fatally whenever the directory walk encounters an error" is false. -/
theorem walk_error_not_fatal_counterexample :
    (mainRun envDemo [wAllOk, wAllOk] true .readDirErr []).outcome =
      .success ∧
    (mainRun envDemo [wAllOk, wAllOk] true .readDirErr []).output ≠
      none := by
  decide

/-- C6 amended: after all targets succeed the program enumerates the
destination directory and reports the discovered paths; a failing `ls`
is fatal, but a directory-walk error is silently ignored (the walk
callback returns nil and appends the path regardless), so the walk-error
fatal branch never triggers. -/
theorem main_final_phase (env : Env) (worlds : List World) (e : WalkFsErr)
    (fs0 : List String)
    (hoc : (runBuilds (mkConfig env) ((platformStrs env).zip worlds)
        fs0 []).outcome = .success) :
    (mainRun env worlds false e fs0).outcome = .fatal ∧
    (mainRun env worlds true e fs0).outcome = .success ∧
    (mainRun env worlds true e fs0).output =
      some (setOutputLine (walkModel (mkConfig env).destDir
        (runBuilds (mkConfig env) ((platformStrs env).zip worlds)
          fs0 []).fs e).1) := by
  refine ⟨?_, ?_, ?_⟩ <;>
    simp [mainRun, hoc, walkModel_no_error]

/-- Witness for C6 amended at a concrete input. -/
theorem main_final_phase_witness :
    (mainRun envDemo [wAllOk, wAllOk] false .statRootErr []).outcome =
      .fatal ∧
    (mainRun envDemo [wAllOk, wAllOk] true .statRootErr []).outcome =
      .success ∧
    (mainRun envDemo [wAllOk, wAllOk] true .statRootErr []).output =
      some (setOutputLine (walkModel (mkConfig envDemo).destDir
        (runBuilds (mkConfig envDemo)
          ((platformStrs envDemo).zip [wAllOk, wAllOk]) [] []).fs
        .statRootErr).1) :=
  main_final_phase envDemo [wAllOk, wAllOk] .statRootErr [] (by decide)

/- ### C5: the end-to-end two-target scenario -/

/-- C5 counterexample: in the scenario targets = `linux/amd64,windows/arm64`
with compress = false, the destination directory does contain exactly the
two expected binaries, but the reported artifact list contains a third
path — the destination directory itself, which `filepath.Walk` visits
first — so the output does not name exactly the two file paths. -/
theorem artifact_list_extra_path_counterexample :
    (mainRun envDemo [wAllOk, wAllOk] true .noErr []).walkFiles =
      ["dist", "dist/app-linux-amd64", "dist/app-windows-arm64.exe"] ∧
    "dist" ∈ (mainRun envDemo [wAllOk, wAllOk] true .noErr []).walkFiles ∧
    "dist" ∉ ["dist/app-linux-amd64", "dist/app-windows-arm64.exe"] := by
  decide

/-- C5 amended: in the end-to-end scenario the destination directory ends
up containing exactly the two files `app-linux-amd64` and
`app-windows-arm64.exe`, and the final structured artifact-list output
names the destination-directory path followed by exactly these two
paths. -/
theorem end_to_end_two_targets :
    (mainRun envDemo [wAllOk, wAllOk] true .noErr []).fsFinal =
      ["app-linux-amd64", "app-windows-arm64.exe"] ∧
    (mainRun envDemo [wAllOk, wAllOk] true .noErr []).walkFiles =
      ["dist", "dist/app-linux-amd64", "dist/app-windows-arm64.exe"] ∧
    (mainRun envDemo [wAllOk, wAllOk] true .noErr []).output =
      some ("::set-output name=files::" ++
        "dist dist/app-linux-amd64 dist/app-windows-arm64.exe") ∧
    (mainRun envDemo [wAllOk, wAllOk] true .noErr []).outcome =
      .success := by
  decide
